import Mathlib

/-!
Verification of `resnet/models/nnlib.py` (layer-construction library).

Shallow embedding conventions:
* Scalars are rationals (`ℚ`).  The numeric backend's `sqrt` is external to
  the library, so it is passed as an explicit function parameter `sq : ℚ → ℚ`.
* Tensors are total functions out of `Fin`-indexed shapes.  For the batch-norm
  family the reduction axes are flattened into a single index of size `m`
  and the remaining feature axis has size `c` (= `n_out`).
* The persistent moving-average state of `batch_norm` /
  `batch_norm_mean_only` is passed and returned explicitly; a training-mode
  call returns the updated state together with the output, modelling the
  `tf.control_dependencies` sequencing (the update has happened whenever
  the output exists).
* `tf.train.ExponentialMovingAverage(decay=0.9)` (no `num_updates`) updates a
  shadow value by `shadow ← shadow - (1 - decay) * (shadow - value)`; this is
  `emaStep` below.
* Fallible construction (`weight_variable` raising `ValueError`) is an
  `Except`; log output is a list of structured events.
-/

/-- Data type tag for declared variables; the source warns when it is not
`float32`. -/
inductive DType
| float32
| float64
deriving DecidableEq

/-- Structured log events emitted by `weight_variable` and `mlp`. -/
inductive LogEvent
| warnNotFloat32
| infoWeightShape (shape : List Nat)
| infoWeightDecay (wd : ℚ)
| warnNoWeightDecay
| infoApplyDropout
deriving DecidableEq

/-- The resolved initialization of a variable, one per branch of the
`if/elif` chain of `weight_variable` (lines 34-64 of nnlib.py). -/
inductive InitMethod
| zeros
| truncatedNormal (mean stddev : ℚ)
| uniformScaling (factor : ℚ)
| constant (val : ℚ)
| xavier
deriving DecidableEq

/-- The `init_param` dictionary: a mapping with optional keys
`mean`, `stddev`, `factor`, `val`. -/
structure InitParamMap where
  mean : Option ℚ
  stddev : Option ℚ
  factor : Option ℚ
  val : Option ℚ
deriving DecidableEq

/-- A declared backend variable: name, shape, resolved initialization,
optional regularizer, trainability; storage pinned to cpu. -/
structure Parameter where
  pname : String
  shape : List Nat
  init : InitMethod
  regularizer : Option (List ℚ → ℚ)
  trainable : Bool
  onCpu : Bool

/-- Construction-time failure of `weight_variable`: the `ValueError`
("Non supported initialization method!"), classified by the spec as
`InvalidArgument`. -/
inductive WvError
| invalidArgument
deriving DecidableEq

/-- `tf.nn.l2_loss`: half the sum of squares. -/
def l2_loss (v : List ℚ) : ℚ := (v.map (fun a => a ^ 2)).sum / 2

/-- The `if/elif` dispatch of `weight_variable` on `init_method`
(lines 34-64): `None` means zeros; four named methods read their optional
parameters with the documented defaults; anything else is an error. -/
def dispatchInit : Option String → InitParamMap → Option InitMethod
| none, _ => some InitMethod.zeros
| some "truncated_normal", p =>
    some (InitMethod.truncatedNormal (p.mean.getD 0) (p.stddev.getD (1/10)))
| some "uniform_scaling", p =>
    some (InitMethod.uniformScaling (p.factor.getD 1))
| some "constant", p => some (InitMethod.constant (p.val.getD 0))
| some "xavier", _ => some InitMethod.xavier
| some _, _ => none

/-- The five recognized `init_method` values (unset, and four strings). -/
def recognizedMethod : Option String → Bool
| none => true
| some m =>
    m = "truncated_normal" || m = "uniform_scaling" || m = "constant" ||
      m = "xavier"

/-- The regularizer chosen by `weight_variable` (lines 66-75):
`lambda x: tf.mul(tf.nn.l2_loss(x), wd)` when `wd` is given and positive,
otherwise nothing. -/
def wvRegularizer (wd : Option ℚ) : Option (List ℚ → ℚ) :=
  match wd with
  | some w => if 0 < w then some (fun v => l2_loss v * w) else none
  | none => none

/-- The log events of a successful `weight_variable` call, in source order:
dtype warning (line 32), weight-shape info (line 65), then either the
weight-decay info (line 69) or the "No weight decay" warning (lines 71, 74). -/
def wvLogs (shape : List Nat) (dtype : DType) (wd : Option ℚ) : List LogEvent :=
  (if dtype ≠ DType.float32 then [LogEvent.warnNotFloat32] else []) ++
    [LogEvent.infoWeightShape shape] ++
    (match wd with
     | some w =>
         if 0 < w then [LogEvent.infoWeightDecay w]
         else [LogEvent.warnNoWeightDecay]
     | none => [LogEvent.warnNoWeightDecay])

/-- `weight_variable` (nnlib.py lines 12-84): resolve the initializer (or
fail), choose the regularizer from `wd`, and declare the variable on cpu
under the given name with the requested shape. -/
def weight_variable (shape : List Nat) (init_method : Option String)
    (dtype : DType) (ipar : InitParamMap) (wd : Option ℚ) (name : String)
    (trainable : Bool) : Except WvError (Parameter × List LogEvent) :=
  match dispatchInit init_method ipar with
  | none => Except.error WvError.invalidArgument
  | some ini =>
      Except.ok
        (Parameter.mk name shape ini (wvRegularizer wd) trainable true,
          wvLogs shape dtype wd)

/-- Shape of the declared parameter, when declaration succeeded. -/
def wvOutShape (r : Except WvError (Parameter × List LogEvent)) :
    Option (List Nat) :=
  match r with
  | Except.ok v => some v.1.shape
  | Except.error _ => none

/-- Name of the declared parameter, when declaration succeeded. -/
def wvOutName (r : Except WvError (Parameter × List LogEvent)) :
    Option String :=
  match r with
  | Except.ok v => some v.1.pname
  | Except.error _ => none

/-- Regularizer of the declared parameter, when declaration succeeded. -/
def wvOutReg (r : Except WvError (Parameter × List LogEvent)) :
    Option (Option (List ℚ → ℚ)) :=
  match r with
  | Except.ok v => some v.1.regularizer
  | Except.error _ => none

/-- Logs of a successful declaration. -/
def wvOutLogs (r : Except WvError (Parameter × List LogEvent)) :
    List LogEvent :=
  match r with
  | Except.ok v => some v.2 |>.getD []
  | Except.error _ => []

/-- The `w` declaration of one `cnn` layer (lines 125-144): if a per-layer
`init_method` entry is present and truthy it is used, otherwise
"truncated_normal"; either way `init_param` is `{mean: 0.0, stddev: init_std}`
and the layer's `wd` is passed through. -/
def cnn_w_decl (fsz : List Nat) (imethod : Option String) (istd : ℚ)
    (dtype : DType) (wd : Option ℚ) (trainable : Bool) :
    Except WvError (Parameter × List LogEvent) :=
  match imethod with
  | some mm =>
      if mm ≠ "" then
        weight_variable fsz (some mm) dtype
          (InitParamMap.mk (some 0) (some istd) none none) wd "w" trainable
      else
        weight_variable fsz (some "truncated_normal") dtype
          (InitParamMap.mk (some 0) (some istd) none none) wd "w" trainable
  | none =>
      weight_variable fsz (some "truncated_normal") dtype
        (InitParamMap.mk (some 0) (some istd) none none) wd "w" trainable

/-- The `b` declaration of one `cnn` layer (lines 146-154): shape
`[filter_size[ii][3]]`, constant 0 initialization, and no `wd` argument
(the source's `wd=wd` line is commented out). -/
def cnn_b_decl (fsz : List Nat) (dtype : DType) (trainable : Bool) :
    Except WvError (Parameter × List LogEvent) :=
  weight_variable [fsz.getD 3 0] (some "constant") dtype
    (InitParamMap.mk none none none (some 0)) none "b" trainable

/-- The `w` declaration of one `mlp` layer (lines 206-225): shape
`[dim_in, dim_out]`, same initializer selection as the cnn layer. -/
def mlp_w_decl (dim_in dim_out : Nat) (imethod : Option String) (istd : ℚ)
    (dtype : DType) (wd : Option ℚ) (trainable : Bool) :
    Except WvError (Parameter × List LogEvent) :=
  match imethod with
  | some mm =>
      if mm ≠ "" then
        weight_variable [dim_in, dim_out] (some mm) dtype
          (InitParamMap.mk (some 0) (some istd) none none) wd "w" trainable
      else
        weight_variable [dim_in, dim_out] (some "truncated_normal") dtype
          (InitParamMap.mk (some 0) (some istd) none none) wd "w" trainable
  | none =>
      weight_variable [dim_in, dim_out] (some "truncated_normal") dtype
        (InitParamMap.mk (some 0) (some istd) none none) wd "w" trainable

/-- The `b` declaration of one `mlp` layer (lines 227-235): shape
`[dim_out]`, constant 0.0 initialization, and no `wd` argument
(the source's `wd=wd` line is commented out). -/
def mlp_b_decl (dim_out : Nat) (dtype : DType) (trainable : Bool) :
    Except WvError (Parameter × List LogEvent) :=
  weight_variable [dim_out] (some "constant") dtype
    (InitParamMap.mk none none none (some 0)) none "b" trainable

/-- Decay constant of `tf.train.ExponentialMovingAverage(decay=0.9)`
(lines 288 and 342); `num_updates` is not passed, so this decay is used at
every step. -/
def emaDecay : ℚ := 9/10

/-- One update of an exponential moving average, as performed by
`assign_moving_average`: `shadow ← shadow - (1 - decay) * (shadow - value)`. -/
def emaStep (old v : ℚ) : ℚ := old - (1 - emaDecay) * (old - v)

/-- Iterated moving-average updates over a list of incoming statistics. -/
def emaRun (init : ℚ) (vs : List ℚ) : ℚ := vs.foldl emaStep init

/-- `tf.nn.moments` mean over the flattened reduction axes (size `m`) of a
tensor with feature axis of size `c`. -/
def momentsMean {m c : ℕ} (x : Fin m → Fin c → ℚ) (j : Fin c) : ℚ :=
  (∑ i, x i j) / m

/-- `tf.nn.moments` (biased) variance over the flattened reduction axes. -/
def momentsVar {m c : ℕ} (x : Fin m → Fin c → ℚ) (j : Fin c) : ℚ :=
  (∑ i, (x i j - momentsMean x j) ^ 2) / m

/-- Persistent state of one `batch_norm` site: the variables
`ema_mean` and `ema_var`, each shaped `[n_out]`. -/
structure BNState (c : ℕ) where
  emaMean : Fin c → ℚ
  emaVar : Fin c → ℚ

/-- Scale factor used by `tf.nn.batch_normalization`: the `scale` (gamma)
tensor when given, else 1. -/
def scaleOf {c : ℕ} (g : Option (Fin c → ℚ)) (j : Fin c) : ℚ :=
  match g with
  | none => 1
  | some f => f j

/-- Offset used by `tf.nn.batch_normalization`: the `offset` (beta) tensor
when given, else 0. -/
def offsetOf {c : ℕ} (b : Option (Fin c → ℚ)) (j : Fin c) : ℚ :=
  match b with
  | none => 0
  | some f => f j

/-- `tf.nn.batch_normalization(x, mean, var, beta, gamma, eps)`:
`(x - mean) / sqrt(var + eps) * gamma + beta` with absent gamma read as 1
and absent beta as 0. -/
def bnOut {m c : ℕ} (sq : ℚ → ℚ) (eps : ℚ) (meanv varv : Fin c → ℚ)
    (gamma beta : Option (Fin c → ℚ)) (x : Fin m → Fin c → ℚ) :
    Fin m → Fin c → ℚ :=
  fun i j =>
    (x i j - meanv j) / sq (varv j + eps) * scaleOf gamma j + offsetOf beta j

/-- `batch_norm` (lines 252-307).  Training mode: compute the batch moments,
update `ema_mean`/`ema_var` by the decay-0.9 moving average (the
`control_dependencies` blocks of lines 290-295 sequence these updates before
the output), and normalize with the batch statistics.  Eval mode: normalize
with the stored `ema_mean`/`ema_var` and leave the state untouched. -/
def batch_norm {m c : ℕ} (sq : ℚ → ℚ) (is_training : Bool)
    (gamma beta : Option (Fin c → ℚ)) (eps : ℚ) (x : Fin m → Fin c → ℚ)
    (st : BNState c) : BNState c × (Fin m → Fin c → ℚ) :=
  if is_training then
    (BNState.mk (fun j => emaStep (st.emaMean j) (momentsMean x j))
        (fun j => emaStep (st.emaVar j) (momentsVar x j)),
      bnOut sq eps (momentsMean x) (momentsVar x) gamma beta x)
  else
    (st, bnOut sq eps st.emaMean st.emaVar gamma beta x)

/-- State evolution of a `batch_norm` site across a sequence of training
steps, one batch per step. -/
def bnTrainRun {m c : ℕ} (sq : ℚ → ℚ) (gamma beta : Option (Fin c → ℚ))
    (eps : ℚ) (xs : List (Fin m → Fin c → ℚ)) (st : BNState c) : BNState c :=
  xs.foldl (fun s x => (batch_norm sq true gamma beta eps x s).1) st

/-- Elementwise `normed *= gamma` when gamma is present (broadcast over the
feature axis), as in lines 349-350. -/
def applyGamma {m c : ℕ} (g : Option (Fin c → ℚ)) (y : Fin m → Fin c → ℚ) :
    Fin m → Fin c → ℚ :=
  match g with
  | none => y
  | some f => fun i j => y i j * f j

/-- Elementwise `normed += beta` when beta is present, as in lines 351-352. -/
def applyBeta {m c : ℕ} (b : Option (Fin c → ℚ)) (y : Fin m → Fin c → ℚ) :
    Fin m → Fin c → ℚ :=
  match b with
  | none => y
  | some f => fun i j => y i j + f j

/-- `batch_norm_mean_only` (lines 310-365): only a moving average of the
mean is kept; training subtracts the batch mean (after sequencing the
`ema_mean` update), eval subtracts the stored `ema_mean`; then gamma and
beta are applied independently when present.  No variance, no division. -/
def batch_norm_mean_only {m c : ℕ} (is_training : Bool)
    (gamma beta : Option (Fin c → ℚ)) (x : Fin m → Fin c → ℚ)
    (emean : Fin c → ℚ) : (Fin c → ℚ) × (Fin m → Fin c → ℚ) :=
  if is_training then
    (fun j => emaStep (emean j) (momentsMean x j),
      applyBeta beta (applyGamma gamma (fun i j => x i j - momentsMean x j)))
  else
    (emean, applyBeta beta (applyGamma gamma (fun i j => x i j - emean j)))

/-- Per-example mean of `layer_norm` (`tf.nn.moments` over the non-batch
axes, flattened to size `mm`, with `keep_dims=True`). -/
def lnMean {bb mm : ℕ} (x : Fin bb → Fin mm → ℚ) (i : Fin bb) : ℚ :=
  (∑ j, x i j) / mm

/-- Per-example (biased) variance of `layer_norm`. -/
def lnVar {bb mm : ℕ} (x : Fin bb → Fin mm → ℚ) (i : Fin bb) : ℚ :=
  (∑ j, (x i j - lnMean x i) ^ 2) / mm

/-- `layer_norm` (lines 368-405): stateless; per example, subtract the mean,
divide by `sqrt(eps + var)`, then apply gamma and beta when present. -/
def layer_norm {bb mm : ℕ} (sq : ℚ → ℚ) (gamma beta : Option (Fin mm → ℚ))
    (eps : ℚ) (x : Fin bb → Fin mm → ℚ) : Fin bb → Fin mm → ℚ :=
  applyBeta beta
    (applyGamma gamma (fun i j => (x i j - lnMean x i) / sq (eps + lnVar x i)))

/-- Zero-padded read of a 1-D signal at an integer coordinate. -/
def zpad1 {n : ℕ} (v : Fin n → ℚ) (i : ℤ) : ℚ :=
  if h : 0 ≤ i ∧ i < (n : ℤ) then v (Fin.mk i.toNat (by omega)) else 0

/-- `tf.nn.conv1d` with stride 1 and SAME padding: cross-correlation with
left padding `(k-1)/2` so the output has the input's length. -/
def conv1dSame {n k : ℕ} (w : Fin k → ℚ) (v : Fin n → ℚ) : Fin n → ℚ :=
  fun i =>
    ∑ p : Fin k,
      w p * zpad1 v (((i : ℕ) : ℤ) + ((p : ℕ) : ℤ) - (((k - 1) / 2 : ℕ) : ℤ))

/-- Zero-padded read of a 2-D map at integer coordinates. -/
def zpad2 {H W : ℕ} (img : Fin H → Fin W → ℚ) (i j : ℤ) : ℚ :=
  if h : (0 ≤ i ∧ i < (H : ℤ)) ∧ 0 ≤ j ∧ j < (W : ℤ) then
    img (Fin.mk i.toNat (by omega)) (Fin.mk j.toNat (by omega))
  else 0

/-- `tf.nn.conv2d` with strides `[1,1,1,1]` and SAME padding on a
single-channel map: cross-correlation with top/left padding
`(kh-1)/2`, `(kw-1)/2`. -/
def conv2dSame {H W kh kw : ℕ} (w : Fin kh → Fin kw → ℚ)
    (img : Fin H → Fin W → ℚ) : Fin H → Fin W → ℚ :=
  fun i j =>
    ∑ p : Fin kh, ∑ q : Fin kw,
      w p q *
        zpad2 img (((i : ℕ) : ℤ) + ((p : ℕ) : ℤ) - (((kh - 1) / 2 : ℕ) : ℤ))
          (((j : ℕ) : ℤ) + ((q : ℕ) : ℤ) - (((kw - 1) / 2 : ℕ) : ℤ))

/-- Summation kernel of `div_norm_2d` (line 436):
`tf.ones(sum_window + [1, 1]) / np.prod(sum_window)`. -/
def dnKernelSum (sum_h sum_w : ℕ) : Fin sum_h → Fin sum_w → ℚ :=
  fun _ _ => 1 / ((sum_h : ℚ) * (sum_w : ℚ))

/-- Suppression kernel of `div_norm_2d` (line 437): uniform over the
`sup_window` extent but divided by `np.prod(sum_window)` — the sum-window
area — exactly as the source writes it. -/
def dnKernelSup (sum_h sum_w sup_h sup_w : ℕ) : Fin sup_h → Fin sup_w → ℚ :=
  fun _ _ => 1 / ((sum_h : ℚ) * (sum_w : ℚ))

/-- Elementwise `normed *= gamma` on a rank-4 [B,H,W,C] tensor (per
channel), as in lines 447-448. -/
def applyGamma4 {B H W C : ℕ} (g : Option (Fin C → ℚ))
    (y : Fin B → Fin H → Fin W → Fin C → ℚ) :
    Fin B → Fin H → Fin W → Fin C → ℚ :=
  match g with
  | none => y
  | some f => fun b i j c => y b i j c * f c

/-- Elementwise `normed += beta` on a rank-4 tensor, as in lines 449-450. -/
def applyBeta4 {B H W C : ℕ} (bta : Option (Fin C → ℚ))
    (y : Fin B → Fin H → Fin W → Fin C → ℚ) :
    Fin B → Fin H → Fin W → Fin C → ℚ :=
  match bta with
  | none => y
  | some f => fun b i j c => y b i j c + f c

/-- Default `eps` of `div_norm_2d` and `div_norm_1d` (lines 413 and 463). -/
def divNormDefaultEps : ℚ := 1

/-- `div_norm_2d` (lines 408-455), transcribed statement by statement:
channel mean, convolution with `w_sum`, residual, squared residual, channel
mean again, convolution with `w_sup`, division by `sqrt(x2_mean + eps)`,
then gamma and beta. -/
def div_norm_2d {B H W C : ℕ} (sq : ℚ → ℚ) (sum_h sum_w sup_h sup_w : ℕ)
    (gamma beta : Option (Fin C → ℚ)) (eps : ℚ)
    (x : Fin B → Fin H → Fin W → Fin C → ℚ) :
    Fin B → Fin H → Fin W → Fin C → ℚ :=
  let x_mean := fun b =>
    conv2dSame (dnKernelSum sum_h sum_w) (fun i j => (∑ c, x b i j c) / C)
  let normed := fun b i j c => x b i j c - x_mean b i j
  let x2 := fun b i j c => (normed b i j c) ^ 2
  let x2_mean := fun b =>
    conv2dSame (dnKernelSup sum_h sum_w sup_h sup_w)
      (fun i j => (∑ c, x2 b i j c) / C)
  let denom := fun b i j => sq (x2_mean b i j + eps)
  applyBeta4 beta
    (applyGamma4 gamma (fun b i j c => normed b i j c / denom b i j))

/-- Modelled from the spec (claim C2's step list): reduce-mean over the
channel axis; convolve with the sum kernel (stride 1, SAME) giving `x_mean`;
subtract `x_mean` from every channel; square the residual; reduce-mean over
channels and convolve with the suppression kernel; divide the residual by
`sqrt(estimate + eps)`; finally apply gamma and beta if provided.  Both
kernels are the uniform box filters normalized by the sum-window area. -/
def divNorm2dFromSpec {B H W C : ℕ} (sq : ℚ → ℚ) (sum_h sum_w sup_h sup_w : ℕ)
    (gamma beta : Option (Fin C → ℚ)) (eps : ℚ)
    (x : Fin B → Fin H → Fin W → Fin C → ℚ) :
    Fin B → Fin H → Fin W → Fin C → ℚ :=
  let chan_mean := fun b i j => (∑ c, x b i j c) / C
  let x_mean := fun b => conv2dSame (dnKernelSum sum_h sum_w) (chan_mean b)
  let residual := fun b i j c => x b i j c - x_mean b i j
  let sq_residual := fun b i j c => (residual b i j c) ^ 2
  let var_est := fun b =>
    conv2dSame (dnKernelSup sum_h sum_w sup_h sup_w)
      (fun i j => (∑ c, sq_residual b i j c) / C)
  applyBeta4 beta
    (applyGamma4 gamma
      (fun b i j c => residual b i j c / sq (var_est b i j + eps)))

/-- Summation kernel of `div_norm_1d` (line 488):
`tf.ones([sum_window, 1, 1]) / float(sum_window)`. -/
def dn1KernelSum (sum_w : ℕ) : Fin sum_w → ℚ := fun _ => 1 / (sum_w : ℚ)

/-- Suppression kernel of `div_norm_1d` (line 489):
`tf.ones([sup_window, 1, 1]) / float(sup_window)` — normalized by its own
window length, unlike the 2-D variant. -/
def dn1KernelSup (sup_w : ℕ) : Fin sup_w → ℚ := fun _ => 1 / (sup_w : ℚ)

/-- `div_norm_1d` (lines 458-505), transcribed statement by statement: the
rank-2 input is convolved (1-D, stride 1, SAME) with `w_sum` to get the
local mean, the residual is squared and convolved with `w_sup` to get the
local variance, the residual is divided by `sqrt(eps + var)`, then gamma
and beta are applied. -/
def div_norm_1d {B D : ℕ} (sq : ℚ → ℚ) (sum_w sup_w : ℕ)
    (gamma beta : Option (Fin D → ℚ)) (eps : ℚ) (x : Fin B → Fin D → ℚ) :
    Fin B → Fin D → ℚ :=
  let meanv := fun b => conv1dSame (dn1KernelSum sum_w) (x b)
  let x_mean := fun b d => x b d - meanv b d
  let x2 := fun b d => (x_mean b d) ^ 2
  let varv := fun b => conv1dSame (dn1KernelSup sup_w) (x2 b)
  applyBeta beta
    (applyGamma gamma (fun b d => (x b d - meanv b d) / sq (eps + varv b d)))

/-- Modelled from the spec (claim C7): the divisive-normalization pipeline
of `div_norm_2d` specialized to rank-2 [batch, feature] tensors with 1-D
convolutions along the feature axis (the channel reduce-mean steps are
identities on a single implicit channel), with the sum kernel normalized by
`sum_window` and the suppression kernel by `sup_window`. -/
def divNorm1dFromSpec {B D : ℕ} (sq : ℚ → ℚ) (sum_w sup_w : ℕ)
    (gamma beta : Option (Fin D → ℚ)) (eps : ℚ) (x : Fin B → Fin D → ℚ) :
    Fin B → Fin D → ℚ :=
  let x_mean := fun b => conv1dSame (dn1KernelSum sum_w) (x b)
  let residual := fun b d => x b d - x_mean b d
  let var_est := fun b => conv1dSame (dn1KernelSup sup_w) (fun d => (residual b d) ^ 2)
  applyBeta beta
    (applyGamma gamma (fun b d => residual b d / sq (eps + var_est b d)))

/-- Dot product of two rows. -/
def dotProd (a b : List ℚ) : ℚ := (List.zipWith (fun p q => p * q) a b).sum

/-- `tf.matmul` on list-of-rows matrices. -/
def matMul (h w : List (List ℚ)) : List (List ℚ) :=
  h.map (fun row => w.transpose.map (dotProd row))

/-- One row of `tf.nn.dropout` with keep probability `keep`, driven by a
uniform randomness source `ui` (one draw per element, indexed from `j`):
an element is kept — and scaled by `1/keep` — when its draw is below
`keep`, else zeroed. -/
def dropoutRow (keep : ℚ) (ui : ℕ → ℚ) : ℕ → List ℚ → List ℚ
| _, [] => []
| j, v :: vs => (if ui j < keep then v / keep else 0) :: dropoutRow keep ui (j + 1) vs

/-- `tf.nn.dropout` on a list-of-rows matrix, with an independent draw
`u i j` per element. -/
def tfDropout (keep : ℚ) (u : ℕ → ℕ → ℚ) : ℕ → List (List ℚ) → List (List ℚ)
| _, [] => []
| i, row :: rows => dropoutRow keep (u i) 0 row :: tfDropout keep u (i + 1) rows

/-- Keep probability chosen by `mlp` when a layer's dropout flag is set
(lines 244-247): 0.5 when training, 1.0 otherwise. -/
def mlpKeepProb (is_training : Bool) : ℚ := if is_training then 1/2 else 1

/-- Effective dropout flag of `mlp` layer `ii` (line 242):
`dropout is not None and dropout[ii]`. -/
def mlpDropFlag (dropoutList : Option (List Bool)) (ii : ℕ) : Bool :=
  match dropoutList with
  | none => false
  | some l => l.getD ii false

/-- The deterministic part of one `mlp` layer (lines 237-241): linear
transform, optional bias, optional activation — everything before the
dropout decision. -/
def mlpPreDrop (add_bias : Bool) (w : List (List ℚ)) (b : List ℚ)
    (act : Option (ℚ → ℚ)) (h : List (List ℚ)) : List (List ℚ) :=
  let h1 := matMul h w
  let h2 := if add_bias then h1.map (fun row => List.zipWith (fun p q => p + q) row b) else h1
  match act with
  | none => h2
  | some f => h2.map (List.map f)

/-- One `mlp` layer (lines 237-248): the deterministic pipeline followed by
`tf.nn.dropout` with keep probability `mlpKeepProb is_training` when the
layer's dropout flag is set. -/
def mlpLayer (is_training add_bias : Bool) (u : ℕ → ℕ → ℚ)
    (w : List (List ℚ)) (b : List ℚ) (act : Option (ℚ → ℚ)) (dflag : Bool)
    (h : List (List ℚ)) : List (List ℚ) :=
  if dflag then
    tfDropout (mlpKeepProb is_training) u 0 (mlpPreDrop add_bias w b act h)
  else mlpPreDrop add_bias w b act h

/-- Per-layer data of an `mlp` stack: declared weight matrix and bias,
activation, effective dropout flag, and the layer's randomness source. -/
structure MlpLayerData where
  w : List (List ℚ)
  b : List ℚ
  act : Option (ℚ → ℚ)
  dflag : Bool
  u : ℕ → ℕ → ℚ

/-- `mlp` (lines 170-249): the layers applied strictly sequentially. -/
def mlp (is_training add_bias : Bool) (layers : List MlpLayerData)
    (x : List (List ℚ)) : List (List ℚ) :=
  layers.foldl
    (fun h L => mlpLayer is_training add_bias L.u L.w L.b L.act L.dflag h) x

/-- Success projection of a declaration result. -/
def wvOk (r : Except WvError (Parameter × List LogEvent)) : Bool :=
  match r with
  | Except.ok _ => true
  | Except.error _ => false

theorem dispatchInit_eq_none_iff (m : Option String) (p : InitParamMap) :
    dispatchInit m p = none ↔ recognizedMethod m = false := by
  cases m with
  | none => simp [dispatchInit, recognizedMethod]
  | some s =>
    by_cases h1 : s = "truncated_normal"
    · subst h1; simp [dispatchInit, recognizedMethod]
    by_cases h2 : s = "uniform_scaling"
    · subst h2; simp [dispatchInit, recognizedMethod]
    by_cases h3 : s = "constant"
    · subst h3; simp [dispatchInit, recognizedMethod]
    by_cases h4 : s = "xavier"
    · subst h4; simp [dispatchInit, recognizedMethod]
    constructor
    · intro _
      simp [recognizedMethod, h1, h2, h3, h4]
    · intro _
      unfold dispatchInit
      split
      · simp_all
      · simp_all
      · simp_all
      · simp_all
      · simp_all
      · rfl

/-- Claim C3: for every initializer method among the five recognized values
(unset, "truncated_normal", "uniform_scaling", "constant", "xavier"),
`weight_variable` returns a parameter of exactly the requested shape bound
to the given name; for any other method string it fails with the
`InvalidArgument` error, aborting construction. -/
theorem weight_variable_shape_contract (shape : List Nat) (m : Option String)
    (dt : DType) (p : InitParamMap) (wd : Option ℚ) (nm : String) (tr : Bool) :
    (recognizedMethod m = true →
      wvOutShape (weight_variable shape m dt p wd nm tr) = some shape ∧
        wvOutName (weight_variable shape m dt p wd nm tr) = some nm) ∧
    (recognizedMethod m = false →
      weight_variable shape m dt p wd nm tr =
        Except.error WvError.invalidArgument) := by
  constructor
  · intro hrec
    cases hd : dispatchInit m p with
    | none =>
      rw [dispatchInit_eq_none_iff] at hd
      rw [hrec] at hd
      exact absurd hd (by simp)
    | some ini =>
      constructor
      · simp [weight_variable, hd, wvOutShape]
      · simp [weight_variable, hd, wvOutName]
  · intro hrec
    have hd : dispatchInit m p = none := (dispatchInit_eq_none_iff m p).mpr hrec
    simp [weight_variable, hd]

/-- Witness for claim C3 at a recognized method ("xavier") and an
unrecognized one ("bogus"). -/
theorem weight_variable_shape_contract_witness :
    (wvOutShape
        (weight_variable [3, 3] (some "xavier") DType.float32
          (InitParamMap.mk none none none none) none "w" true) =
      some [3, 3]) ∧
    (weight_variable [3, 3] (some "bogus") DType.float32
        (InitParamMap.mk none none none none) none "w" true =
      Except.error WvError.invalidArgument) :=
  ⟨((weight_variable_shape_contract [3, 3] (some "xavier") DType.float32
        (InitParamMap.mk none none none none) none "w" true).1 rfl).1,
    (weight_variable_shape_contract [3, 3] (some "bogus") DType.float32
        (InitParamMap.mk none none none none) none "w" true).2 rfl⟩

/-- Claim C5: when a weight-decay coefficient `wd` is provided and positive,
`weight_variable` attaches the regularization penalty
`0.5 * wd * sum(parameter^2)` to the parameter; when `wd` is absent or
non-positive, no penalty is attached and only the warning-level
"No weight decay" diagnostic is emitted — the call still succeeds. -/
theorem weight_variable_decay_penalty (shape : List Nat) (m : Option String)
    (dt : DType) (p : InitParamMap) (nm : String) (tr : Bool)
    (wd : Option ℚ) (w : ℚ) :
    (recognizedMethod m = true →
      wvOutReg (weight_variable shape m dt p wd nm tr) =
        some (wvRegularizer wd)) ∧
    (0 < w → wvRegularizer (some w) = some (fun v => l2_loss v * w)) ∧
    (∀ v : List ℚ,
      l2_loss v * w = 1/2 * w * (v.map (fun a => a ^ 2)).sum) ∧
    (w ≤ 0 → wvRegularizer (some w) = none) ∧
    (wvRegularizer none = none) ∧
    (w ≤ 0 → recognizedMethod m = true →
      LogEvent.warnNoWeightDecay ∈
        wvOutLogs (weight_variable shape m dt p (some w) nm tr)) ∧
    (recognizedMethod m = true →
      LogEvent.warnNoWeightDecay ∈
        wvOutLogs (weight_variable shape m dt p none nm tr)) ∧
    (wvOk (weight_variable shape m dt p wd nm tr) =
      wvOk (weight_variable shape m dt p none nm tr)) := by
  refine ⟨?_, ?_, ?_, ?_, rfl, ?_, ?_, ?_⟩
  · intro hrec
    cases hd : dispatchInit m p with
    | none =>
      rw [dispatchInit_eq_none_iff] at hd
      rw [hrec] at hd
      exact absurd hd (by simp)
    | some ini => simp [weight_variable, hd, wvOutReg]
  · intro hw
    simp [wvRegularizer, hw]
  · intro v
    unfold l2_loss
    ring
  · intro hw
    simp [wvRegularizer, not_lt.mpr hw]
  · intro hw hrec
    cases hd : dispatchInit m p with
    | none =>
      rw [dispatchInit_eq_none_iff] at hd
      rw [hrec] at hd
      exact absurd hd (by simp)
    | some ini => simp [weight_variable, hd, wvOutLogs, wvLogs, not_lt.mpr hw]
  · intro hrec
    cases hd : dispatchInit m p with
    | none =>
      rw [dispatchInit_eq_none_iff] at hd
      rw [hrec] at hd
      exact absurd hd (by simp)
    | some ini => simp [weight_variable, hd, wvOutLogs, wvLogs]
  · cases hd : dispatchInit m p with
    | none => simp [weight_variable, hd, wvOk]
    | some ini => simp [weight_variable, hd, wvOk]

/-- Witness for claim C5: a positive coefficient (2) attaches the L2
penalty, a non-positive one (-1) attaches none and logs the warning. -/
theorem weight_variable_decay_penalty_witness :
    (wvOutReg
        (weight_variable [2] none DType.float32
          (InitParamMap.mk none none none none) (some 2) "w" true) =
      some (wvRegularizer (some 2))) ∧
    (wvRegularizer (some 2) = some (fun v => l2_loss v * 2)) ∧
    (wvRegularizer (some (-1)) = none) ∧
    (LogEvent.warnNoWeightDecay ∈
      wvOutLogs
        (weight_variable [2] none DType.float32
          (InitParamMap.mk none none none none) (some (-1)) "w" true)) :=
  ⟨(weight_variable_decay_penalty [2] none DType.float32
        (InitParamMap.mk none none none none) "w" true (some 2) 2).1 rfl,
    (weight_variable_decay_penalty [2] none DType.float32
        (InitParamMap.mk none none none none) "w" true (some 2) 2).2.1
      (by norm_num),
    (weight_variable_decay_penalty [2] none DType.float32
        (InitParamMap.mk none none none none) "w" true (some (-1))
        (-1)).2.2.2.1 (by norm_num),
    (weight_variable_decay_penalty [2] none DType.float32
        (InitParamMap.mk none none none none) "w" true (some (-1))
        (-1)).2.2.2.2.2.1 (by norm_num) rfl⟩

/-- Claim C10: the bias declarations of `cnn` and `mlp` layers pass no
weight-decay coefficient (the `wd=wd` argument is commented out in the
source), so the bias parameter carries no L2 penalty even when a positive
`wd` is passed to `cnn`/`mlp`; the weight declarations pass `wd` through,
so the penalty attaches only to the convolution-filter / linear-weight
parameters. -/
theorem bias_no_weight_decay (fsz : List Nat) (dim_in dim_out : Nat)
    (istd : ℚ) (dt : DType) (wd : Option ℚ) (wdv : ℚ) (tr : Bool) :
    (wvOutReg (cnn_b_decl fsz dt tr) = some none) ∧
    (wvOutReg (mlp_b_decl dim_out dt tr) = some none) ∧
    (wvOutReg (cnn_w_decl fsz none istd dt wd tr) =
      some (wvRegularizer wd)) ∧
    (wvOutReg (mlp_w_decl dim_in dim_out none istd dt wd tr) =
      some (wvRegularizer wd)) ∧
    (0 < wdv →
      wvOutReg (cnn_w_decl fsz none istd dt (some wdv) tr) =
          some (some (fun v => l2_loss v * wdv)) ∧
        wvOutReg (mlp_w_decl dim_in dim_out none istd dt (some wdv) tr) =
          some (some (fun v => l2_loss v * wdv))) := by
  refine ⟨rfl, rfl, rfl, rfl, ?_⟩
  intro hw
  constructor
  · simp [cnn_w_decl, weight_variable, dispatchInit, wvOutReg, wvRegularizer,
      hw]
  · simp [mlp_w_decl, weight_variable, dispatchInit, wvOutReg, wvRegularizer,
      hw]

/-- Witness for claim C10 with `wd = 1` on a `[1,1,1,8]` filter. -/
theorem bias_no_weight_decay_witness :
    (wvOutReg (cnn_b_decl [1, 1, 1, 8] DType.float32 true) = some none) ∧
    (wvOutReg (cnn_w_decl [1, 1, 1, 8] none (1/10) DType.float32 (some 1)
          true) =
      some (some (fun v => l2_loss v * 1))) :=
  ⟨(bias_no_weight_decay [1, 1, 1, 8] 2 3 (1/10) DType.float32 (some 1) 1
        true).1,
    ((bias_no_weight_decay [1, 1, 1, 8] 2 3 (1/10) DType.float32 (some 1) 1
          true).2.2.2.2 (by norm_num)).1⟩

theorem bnTrainRun_emaMean_run {m c : ℕ} (sq : ℚ → ℚ)
    (gamma beta : Option (Fin c → ℚ)) (eps : ℚ) (j : Fin c)
    (xs : List (Fin m → Fin c → ℚ)) (st : BNState c) :
    (bnTrainRun sq gamma beta eps xs st).emaMean j =
      emaRun (st.emaMean j) (xs.map (fun bch => momentsMean bch j)) := by
  induction xs generalizing st with
  | nil => rfl
  | cons a l ih =>
    simp only [bnTrainRun, List.foldl, List.map, emaRun] at *
    rw [ih]
    rfl

theorem bnTrainRun_emaVar_run {m c : ℕ} (sq : ℚ → ℚ)
    (gamma beta : Option (Fin c → ℚ)) (eps : ℚ) (j : Fin c)
    (xs : List (Fin m → Fin c → ℚ)) (st : BNState c) :
    (bnTrainRun sq gamma beta eps xs st).emaVar j =
      emaRun (st.emaVar j) (xs.map (fun bch => momentsVar bch j)) := by
  induction xs generalizing st with
  | nil => rfl
  | cons a l ih =>
    simp only [bnTrainRun, List.foldl, List.map, emaRun] at *
    rw [ih]
    rfl

/-- Claim C1: in training mode `batch_norm` computes the batch mean and
variance over the reduction axes, updates the persistent moving averages by
the decay-0.9 recurrence `ema ← 0.9*ema + 0.1*batch_stat` (the same decay
at every step: running any list of batches folds the recurrence), and its
output is `(x - batch_mean) / sqrt(batch_var + eps) * gamma + beta` using
the batch statistics, not the updated averages.  The update is part of the
same atomic step that yields the output (the `control_dependencies`
ordering): the returned state is already updated whenever the output
exists. -/
theorem batch_norm_train_recurrence {m c : ℕ} (sq : ℚ → ℚ)
    (gamma beta : Option (Fin c → ℚ)) (eps : ℚ) (x : Fin m → Fin c → ℚ)
    (st : BNState c) (xs : List (Fin m → Fin c → ℚ)) (j : Fin c) :
    ((batch_norm sq true gamma beta eps x st).1.emaMean j =
      9/10 * st.emaMean j + 1/10 * momentsMean x j) ∧
    ((batch_norm sq true gamma beta eps x st).1.emaVar j =
      9/10 * st.emaVar j + 1/10 * momentsVar x j) ∧
    ((batch_norm sq true gamma beta eps x st).2 = fun i jj =>
      (x i jj - momentsMean x jj) / sq (momentsVar x jj + eps) *
          scaleOf gamma jj + offsetOf beta jj) ∧
    ((bnTrainRun sq gamma beta eps xs st).emaMean j =
      emaRun (st.emaMean j) (xs.map (fun bch => momentsMean bch j))) ∧
    ((bnTrainRun sq gamma beta eps xs st).emaVar j =
      emaRun (st.emaVar j) (xs.map (fun bch => momentsVar bch j))) := by
  refine ⟨?_, ?_, rfl, ?_, ?_⟩
  · show emaStep (st.emaMean j) (momentsMean x j) = _
    unfold emaStep emaDecay
    ring
  · show emaStep (st.emaVar j) (momentsVar x j) = _
    unfold emaStep emaDecay
    ring
  · exact bnTrainRun_emaMean_run sq gamma beta eps j xs st
  · exact bnTrainRun_emaVar_run sq gamma beta eps j xs st

/-- Claim C4: in evaluation mode `batch_norm` normalizes with the stored
`ema_mean`/`ema_var` and mutates nothing: the state returned is the state
passed in, any number of repeated eval calls leaves it unchanged, and the
output is the pure function `bnOut` of the input and the stored state. -/
theorem batch_norm_eval_frame {m c : ℕ} (sq : ℚ → ℚ)
    (gamma beta : Option (Fin c → ℚ)) (eps : ℚ) (x : Fin m → Fin c → ℚ)
    (st : BNState c) (n : ℕ) :
    ((batch_norm sq false gamma beta eps x st).1 = st) ∧
    ((batch_norm sq false gamma beta eps x st).2 =
      bnOut sq eps st.emaMean st.emaVar gamma beta x) ∧
    ((fun s => (batch_norm sq false gamma beta eps x s).1)^[n] st = st) := by
  refine ⟨rfl, rfl, ?_⟩
  exact Function.iterate_fixed rfl n

/-- Claim C6: `batch_norm_mean_only` never computes a variance or divides:
in both modes the output is the mean-subtracted input (batch mean in
training, stored `ema_mean` in eval), then multiplied by gamma only when
gamma is provided, then shifted by beta only when beta is provided — the
two options are applied independently, and every right-hand side below is
division-free. -/
theorem batch_norm_mean_only_no_variance {m c : ℕ} (is_training : Bool)
    (g bt : Fin c → ℚ) (x : Fin m → Fin c → ℚ) (emean : Fin c → ℚ)
    (i : Fin m) (j : Fin c) :
    ((batch_norm_mean_only is_training none none x emean).2 i j =
      x i j - (if is_training then momentsMean x j else emean j)) ∧
    ((batch_norm_mean_only is_training (some g) none x emean).2 i j =
      (x i j - (if is_training then momentsMean x j else emean j)) * g j) ∧
    ((batch_norm_mean_only is_training none (some bt) x emean).2 i j =
      (x i j - (if is_training then momentsMean x j else emean j)) + bt j) ∧
    ((batch_norm_mean_only is_training (some g) (some bt) x emean).2 i j =
      (x i j - (if is_training then momentsMean x j else emean j)) * g j +
        bt j) := by
  cases is_training <;>
    simp [batch_norm_mean_only, applyGamma, applyBeta]

/-- Claim C2: `div_norm_2d` on a rank-4 [batch, height, width, channel]
tensor builds two uniform box-filter kernels in which BOTH kernels —
including the suppression kernel — are normalized by the `sum_window` area,
and its output equals exactly the spec's step list (channel reduce-mean,
sum-kernel convolution with stride 1 SAME padding, residual, square,
channel reduce-mean and suppression-kernel convolution, division by
`sqrt(estimate + eps)`, then gamma and beta if provided); the default
`eps` is 1. -/
theorem div_norm_2d_matches_spec {B H W C : ℕ} (sq : ℚ → ℚ)
    (sum_h sum_w sup_h sup_w : ℕ) (gamma beta : Option (Fin C → ℚ))
    (eps : ℚ) (x : Fin B → Fin H → Fin W → Fin C → ℚ) :
    (div_norm_2d sq sum_h sum_w sup_h sup_w gamma beta eps x =
      divNorm2dFromSpec sq sum_h sum_w sup_h sup_w gamma beta eps x) ∧
    (∀ p q, dnKernelSum sum_h sum_w p q =
      1 / ((sum_h : ℚ) * (sum_w : ℚ))) ∧
    (∀ p q, dnKernelSup sum_h sum_w sup_h sup_w p q =
      1 / ((sum_h : ℚ) * (sum_w : ℚ))) ∧
    divNormDefaultEps = 1 :=
  ⟨rfl, fun _ _ => rfl, fun _ _ => rfl, rfl⟩

/-- Claim C7: `div_norm_1d` applies the divisive-normalization pipeline of
`div_norm_2d` to rank-2 [batch, feature] tensors via 1-D SAME convolutions
along the feature axis, and — unlike the 2-D variant — its sum kernel is
normalized by `sum_window` and its suppression kernel by `sup_window`,
each by its own window length. -/
theorem div_norm_1d_matches_spec {B D : ℕ} (sq : ℚ → ℚ) (sum_w sup_w : ℕ)
    (gamma beta : Option (Fin D → ℚ)) (eps : ℚ) (x : Fin B → Fin D → ℚ) :
    (div_norm_1d sq sum_w sup_w gamma beta eps x =
      divNorm1dFromSpec sq sum_w sup_w gamma beta eps x) ∧
    (∀ p, dn1KernelSum sum_w p = 1 / (sum_w : ℚ)) ∧
    (∀ p, dn1KernelSup sup_w p = 1 / (sup_w : ℚ)) :=
  ⟨rfl, fun _ => rfl, fun _ => rfl⟩

theorem dropoutRow_keep_one (ui : ℕ → ℚ) (hui : ∀ j, ui j < 1) :
    ∀ (j0 : ℕ) (row : List ℚ), dropoutRow 1 ui j0 row = row := by
  intro j0 row
  induction row generalizing j0 with
  | nil => rfl
  | cons v vs ih =>
    simp only [dropoutRow, if_pos (hui j0), div_one]
    rw [ih]

theorem tfDropout_keep_one (u : ℕ → ℕ → ℚ) (hu : ∀ i j, u i j < 1) :
    ∀ (i0 : ℕ) (h : List (List ℚ)), tfDropout 1 u i0 h = h := by
  intro i0 h
  induction h generalizing i0 with
  | nil => rfl
  | cons row rows ih =>
    simp only [tfDropout]
    rw [dropoutRow_keep_one (u i0) (hu i0), ih]

/-- Claim C8: an `mlp` layer with the dropout flag set applies
`tf.nn.dropout` with keep probability exactly 0.5 when `is_training` is
true and exactly 1.0 when it is false — a no-op for any in-range randomness
draws, so the eval output is deterministic; a layer whose flag is unset
(in particular every layer when `dropout` is `None`) never applies
dropout; `mlp` is the sequential fold of these layers. -/
theorem mlp_dropout_policy (is_training add_bias : Bool) (u : ℕ → ℕ → ℚ)
    (w : List (List ℚ)) (b : List ℚ) (act : Option (ℚ → ℚ))
    (h : List (List ℚ)) (L : MlpLayerData) (ls : List MlpLayerData)
    (x : List (List ℚ)) (ii : ℕ) :
    (mlpLayer is_training add_bias u w b act true h =
      tfDropout (mlpKeepProb is_training) u 0
        (mlpPreDrop add_bias w b act h)) ∧
    (mlpKeepProb true = 1/2) ∧
    (mlpKeepProb false = 1) ∧
    ((∀ i j, u i j < 1) →
      mlpLayer false add_bias u w b act true h =
        mlpPreDrop add_bias w b act h) ∧
    (mlpLayer is_training add_bias u w b act false h =
      mlpPreDrop add_bias w b act h) ∧
    (mlpDropFlag none ii = false) ∧
    (mlp is_training add_bias (L :: ls) x =
      mlp is_training add_bias ls
        (mlpLayer is_training add_bias L.u L.w L.b L.act L.dflag x)) := by
  refine ⟨rfl, rfl, rfl, ?_, rfl, rfl, rfl⟩
  intro hu
  show tfDropout (mlpKeepProb false) u 0 (mlpPreDrop add_bias w b act h) = _
  exact tfDropout_keep_one u hu 0 _

/-- Witness for claim C8: with all draws equal to 0 (below keep
probability 1), the eval-mode layer with dropout flag set is the identity
on its deterministic part. -/
theorem mlp_dropout_policy_witness :
    mlpLayer false true (fun _ _ => 0) [[1]] [0] none true [[3]] =
      mlpPreDrop true [[1]] [0] none [[3]] :=
  (mlp_dropout_policy false true (fun _ _ => 0) [[1]] [0] none [[3]]
      (MlpLayerData.mk [[1]] [0] none false (fun _ _ => 0)) [] [[3]]
      0).2.2.2.1 (by intro i j; norm_num)

theorem sum_sq_eq_zero {n : ℕ} (f : Fin n → ℚ) (h : ∑ j, f j ^ 2 = 0) :
    ∀ j, f j = 0 := by
  intro j
  have h0 : ∀ i ∈ Finset.univ, (0 : ℚ) ≤ f i ^ 2 := fun i _ => sq_nonneg (f i)
  have hz := (Finset.sum_eq_zero_iff_of_nonneg h0).mp h j (Finset.mem_univ j)
  exact (pow_eq_zero_iff (by norm_num : (2 : ℕ) ≠ 0)).mp hz

/-- Claim C9: `layer_norm` holds no persistent state — it is a pure
function of its input whose statistics are recomputed per example, so its
output at a batch row depends only on that row — and with gamma and beta
absent, on an input whose variance along the reduction axes is zero the
output row is exactly 0 while the denominator `sqrt(eps + var)` stays
nonzero (guarded by `eps > 0`), so no division by zero occurs. -/
theorem layer_norm_zero_variance_safe {bb mm : ℕ} (sq : ℚ → ℚ) (eps : ℚ)
    (x y : Fin bb → Fin mm → ℚ) (i : Fin bb) (hm : 0 < mm) (heps : 0 < eps)
    (hsq : ∀ q : ℚ, 0 < q → sq q ≠ 0) (hvar : lnVar x i = 0) :
    (∀ j, layer_norm sq none none eps x i j = 0) ∧
    (sq (eps + lnVar x i) ≠ 0) ∧
    ((∀ j, y i j = x i j) →
      ∀ j, layer_norm sq none none eps y i j =
        layer_norm sq none none eps x i j) := by
  have hmQ : ((mm : ℚ)) ≠ 0 := Nat.cast_ne_zero.mpr hm.ne'
  have hsum : ∑ j, (x i j - lnMean x i) ^ 2 = 0 := by
    unfold lnVar at hvar
    rcases div_eq_zero_iff.mp hvar with hs | hmz
    · exact hs
    · exact absurd hmz hmQ
  have hres : ∀ j, x i j - lnMean x i = 0 :=
    sum_sq_eq_zero (fun j => x i j - lnMean x i) hsum
  refine ⟨?_, ?_, ?_⟩
  · intro j
    show (x i j - lnMean x i) / sq (eps + lnVar x i) = 0
    rw [hres j, zero_div]
  · rw [hvar, add_zero]
    exact hsq eps heps
  · intro hy j
    have hmean : lnMean y i = lnMean x i := by
      unfold lnMean
      congr 1
      exact Finset.sum_congr rfl (fun jj _ => hy jj)
    have hvarEq : lnVar y i = lnVar x i := by
      unfold lnVar
      rw [hmean]
      congr 1
      exact Finset.sum_congr rfl (fun jj _ => by rw [hy jj])
    show (y i j - lnMean y i) / sq (eps + lnVar y i) =
      (x i j - lnMean x i) / sq (eps + lnVar x i)
    rw [hy j, hmean, hvarEq]

/-- Witness for claim C9: the constant input 5 on a [1, 2] shape has zero
per-example variance, and with `sq` the identity and `eps = 1` the
normalized output is 0. -/
theorem layer_norm_zero_variance_safe_witness :
    layer_norm (fun q => q) none none 1
        (fun _ _ => (5 : ℚ) : Fin 1 → Fin 2 → ℚ) 0 0 = 0 :=
  (layer_norm_zero_variance_safe (fun q => q) 1
      (fun _ _ => (5 : ℚ) : Fin 1 → Fin 2 → ℚ)
      (fun _ _ => (5 : ℚ) : Fin 1 → Fin 2 → ℚ) 0 (by norm_num) (by norm_num)
      (fun q hq => ne_of_gt hq)
      (by norm_num [lnVar, lnMean, Fin.sum_univ_two])).1 0
